import Mathlib

/-!
Shallow embedding of the cart state manager in `src/src/hooks/useCart.tsx`
(the `CartProvider` React hook of the RocketShoes storefront).

The in-memory cart is a `List Product`.  The two external collaborators the
mutations consult — the stock endpoint `GET stock/:id` and the catalog
endpoint `GET products/:id` — are modelled by an `Env` record of functions
returning `Option`: `none` models a rejected request (the promise throwing,
caught by the surrounding `try/catch`).

Each operation returns an `OpResult` recording, besides the resulting cart:
the single `localStorage` write it performed (if any), the `toast.error`
messages raised, and the stock queries issued.  This makes the persistence,
notification and query behaviour of each run explicit and provable.
-/

namespace CartStore

/-- Modelled from the spec: the `Product` type of `src/types.ts` is not in
the sources; per the data model it carries the identity key `id`, the
quantity `amount`, and opaque catalog fields (`name`, `price`, `image`)
that the cart passes through unmodified. -/
structure Product where
  id : Int
  name : String
  price : Int
  image : String
  amount : Int
  deriving DecidableEq, Repr

/-- Modelled from the spec: `Omit<Product, 'amount'>`, the metadata returned
by the catalog endpoint `GET products/:id`. -/
structure ProductData where
  id : Int
  name : String
  price : Int
  image : String
  deriving DecidableEq, Repr

/-- Building `{ ...productData, amount }` from catalog metadata. -/
def Product.ofData (d : ProductData) (amount : Int) : Product :=
  ⟨d.id, d.name, d.price, d.image, amount⟩

/-- The external collaborators (`api.get` endpoints).  `stock pid = none`
models the stock request throwing; `some s` models a response whose
`amount` field is `s`.  Likewise `catalog` for product metadata. -/
structure Env where
  stock : Int → Option Int
  catalog : Int → Option ProductData

/-- Result of running one mutation: the cart published via `setCart`
(unchanged when the mutation was rejected), the snapshot written by
`saveToLocalStorage` (`none` when no write happened), the `toast.error`
messages raised, and the `(productId, requiredQuantity)` stock queries
issued by `checkStockAvailability`. -/
structure OpResult where
  cart : List Product
  saved : Option (List Product)
  errors : List String
  stockQueries : List (Int × Int)
  deriving DecidableEq, Repr

/-- Error message `'Quantidade solicitada fora de estoque'`. -/
def outOfStockMsg : String := "Quantidade solicitada fora de estoque"

/-- Error message `'Erro na adição do produto'`. -/
def addErrorMsg : String := "Erro na adição do produto"

/-- Error message `'Erro na remoção do produto'`. -/
def removeErrorMsg : String := "Erro na remoção do produto"

/-- Error message `'Erro na alteração de quantidade do produto'`. -/
def updateErrorMsg : String := "Erro na alteração de quantidade do produto"

/-- `checkStockAvailability`: fetches `stock/:productId` and compares the
returned amount with the required quantity (`stockQuantity >= requiredQuantity`).
`none` models the request throwing. -/
def checkStockAvailability (env : Env) (productId requiredQuantity : Int) :
    Option Bool :=
  (env.stock productId).map (fun stockQuantity =>
    decide (stockQuantity ≥ requiredQuantity))

/-- `addProduct(productId)`: the absent branch checks stock for quantity 1,
fetches metadata and appends `{ ...productData, amount: 1 }`; the present
branch checks stock for `currentQuantity + 1` and maps the increment over
the cart.  A throwing collaborator lands in the `catch`, raising
`addErrorMsg`.  On success the updated cart is saved and published. -/
def addProduct (env : Env) (cart : List Product) (productId : Int) :
    OpResult :=
  match cart.find? (fun product => product.id == productId) with
  | none =>
    match checkStockAvailability env productId 1 with
    | none => ⟨cart, none, [addErrorMsg], [(productId, 1)]⟩
    | some false => ⟨cart, none, [outOfStockMsg], [(productId, 1)]⟩
    | some true =>
      match env.catalog productId with
      | none => ⟨cart, none, [addErrorMsg], [(productId, 1)]⟩
      | some productData =>
        let updatedCart := cart ++ [Product.ofData productData 1]
        ⟨updatedCart, some updatedCart, [], [(productId, 1)]⟩
  | some productAlreadyInCart =>
    match checkStockAvailability env productId
        (productAlreadyInCart.amount + 1) with
    | none =>
      ⟨cart, none, [addErrorMsg], [(productId, productAlreadyInCart.amount + 1)]⟩
    | some false =>
      ⟨cart, none, [outOfStockMsg], [(productId, productAlreadyInCart.amount + 1)]⟩
    | some true =>
      let updatedCart := cart.map (fun product =>
        if product.id == productId then
          { product with amount := product.amount + 1 }
        else product)
      ⟨updatedCart, some updatedCart, [],
        [(productId, productAlreadyInCart.amount + 1)]⟩

/-- `removeProduct(productId)`: when the id is absent an error is thrown and
caught (`removeErrorMsg`); otherwise the cart is filtered, saved and
published. -/
def removeProduct (cart : List Product) (productId : Int) : OpResult :=
  if (cart.find? (fun product => product.id == productId)).isSome then
    let updatedCart := cart.filter (fun product => product.id != productId)
    ⟨updatedCart, some updatedCart, [], []⟩
  else ⟨cart, none, [removeErrorMsg], []⟩

/-- `updateProductAmount({ productId, amount })`: `amount < 1` returns
silently before any lookup; an absent id throws into the `catch`
(`updateErrorMsg`), as does a throwing stock request; an insufficient stock
raises `outOfStockMsg`; otherwise the cart is mapped to the new amount,
saved and published. -/
def updateProductAmount (env : Env) (cart : List Product)
    (productId amount : Int) : OpResult :=
  if amount < 1 then ⟨cart, none, [], []⟩
  else
    match cart.find? (fun product => product.id == productId) with
    | none => ⟨cart, none, [updateErrorMsg], []⟩
    | some _ =>
      match checkStockAvailability env productId amount with
      | none => ⟨cart, none, [updateErrorMsg], [(productId, amount)]⟩
      | some false => ⟨cart, none, [outOfStockMsg], [(productId, amount)]⟩
      | some true =>
        let updatedCart := cart.map (fun product =>
          if product.id == productId then { product with amount := amount }
          else product)
        ⟨updatedCart, some updatedCart, [], [(productId, amount)]⟩

/-- Initialization of the `useState` for the cart: read the stored value; a
truthy stored string is fed to `JSON.parse` (modelled by the `parse`
argument, `none` meaning the parse throws, in which case initialization
itself throws — result `none`); a missing or empty stored value yields the
empty cart. -/
def initCart (parse : String → Option (List Product))
    (stored : Option String) : Option (List Product) :=
  match stored with
  | none => some []
  | some s => if s = "" then some [] else parse s

/-- The persisted snapshot after an operation ran against a store holding
`store`: `saveToLocalStorage` overwrites the stored value with the cart it
is given. -/
def storeAfter (store : Option (List Product)) (r : OpResult) :
    Option (List Product) :=
  match r.saved with
  | none => store
  | some c => some c

/-- Invariants I1 and I2 of the spec: every amount is at least 1 and the
ids are pairwise distinct. -/
def CartInv (cart : List Product) : Prop :=
  (∀ p ∈ cart, 1 ≤ p.amount) ∧ (cart.map Product.id).Nodup

instance (cart : List Product) : Decidable (CartInv cart) := by
  unfold CartInv; infer_instance

/-- A well-behaved catalog: metadata resolved for `pid` carries id `pid`
(contract of `GET products/:id`). -/
def EnvResolvesIds (env : Env) : Prop :=
  ∀ pid pd, env.catalog pid = some pd → pd.id = pid

/-! Sample inputs used by the witness theorems. -/

/-- Catalog metadata sample, carrying the id it is requested for. -/
def sampleData (pid : Int) : ProductData := ⟨pid, "Tenis", 100, "img"⟩

/-- Environment with plenty of stock and a resolving catalog. -/
def sampleEnv : Env := ⟨fun _ => some 10, fun pid => some (sampleData pid)⟩

/-- Environment whose stock answers 2 for every product. -/
def lowStockEnv : Env := ⟨fun _ => some 2, fun pid => some (sampleData pid)⟩

/-- Environment whose requests all throw. -/
def throwingEnv : Env := ⟨fun _ => none, fun _ => none⟩

/-- Sample cart entry with id 5 and amount 2. -/
def p5 : Product := ⟨5, "Tenis", 100, "img", 2⟩

/-- Sample cart entry with id 7 and amount 1. -/
def p7 : Product := ⟨7, "Sandalia", 80, "img2", 1⟩

/-! Helper lemmas about `find?`, `map` and `filter` on carts. -/

lemma find?_id_eq_none {cart : List Product} {pid : Int}
    (h : ∀ p ∈ cart, p.id ≠ pid) :
    cart.find? (fun product => product.id == pid) = none := by
  rw [List.find?_eq_none]
  intro p hp
  simpa using h p hp

lemma find?_id_split {l1 : List Product} (l2 : List Product) {p : Product}
    {pid : Int} (h1 : ∀ q ∈ l1, q.id ≠ pid) (hp : p.id = pid) :
    (l1 ++ p :: l2).find? (fun product => product.id == pid) = some p := by
  induction l1 with
  | nil => simp [List.find?, hp]
  | cons a t ih =>
    have ha : (a.id == pid) = false := by
      simpa using h1 a (List.mem_cons_self a t)
    rw [List.cons_append, List.find?_cons, ha]
    exact ih (fun q hq => h1 q (List.mem_cons_of_mem a hq))

lemma map_eq_self_of {l : List Product} {f : Product → Product}
    (h : ∀ q ∈ l, f q = q) : l.map f = l := by
  induction l with
  | nil => rfl
  | cons a t ih =>
    rw [List.map_cons, h a (List.mem_cons_self a t),
      ih (fun q hq => h q (List.mem_cons_of_mem a hq))]

lemma filter_eq_self_of {l : List Product} {pid : Int}
    (h : ∀ q ∈ l, q.id ≠ pid) :
    l.filter (fun product => product.id != pid) = l := by
  induction l with
  | nil => rfl
  | cons a t ih =>
    have ha : (a.id != pid) = true := by
      simpa using h a (List.mem_cons_self a t)
    rw [List.filter_cons, if_pos ha]
    rw [ih (fun q hq => h q (List.mem_cons_of_mem a hq))]

lemma nodup_ids_split {l1 l2 : List Product} {p : Product} {pid : Int}
    (hp : p.id = pid)
    (hnd : ((l1 ++ p :: l2).map Product.id).Nodup) :
    (∀ q ∈ l1, q.id ≠ pid) ∧ (∀ q ∈ l2, q.id ≠ pid) := by
  rw [List.map_append, List.map_cons, List.nodup_append] at hnd
  obtain ⟨h1, h2, hdisj⟩ := hnd
  rw [List.nodup_cons] at h2
  constructor
  · intro q hq hqe
    exact hdisj (List.mem_map_of_mem Product.id hq)
      (by simp [hqe, hp])
  · intro q hq hqe
    exact h2.1 (by
      rw [hp, ← hqe]
      exact List.mem_map_of_mem Product.id hq)

lemma map_map_id {cart : List Product} {f : Product → Product}
    (h : ∀ q, (f q).id = q.id) :
    (cart.map f).map Product.id = cart.map Product.id := by
  induction cart with
  | nil => rfl
  | cons a t ih => simp [h a, ih]

/-! Claim theorems. -/

/-- C6: `updateProductAmount` with `amount < 1` is a pure no-op: the cart is
unchanged, no persistence write occurs, no stock query occurs, and no
notification is raised. -/
theorem updateProductAmount_lt_one_noop (env : Env) (cart : List Product)
    (productId amount : Int) (h : amount < 1) :
    updateProductAmount env cart productId amount = ⟨cart, none, [], []⟩ := by
  simp [updateProductAmount, h]

/-- C6 witness: `updateProductAmount` at amount 0 on a concrete cart. -/
theorem updateProductAmount_lt_one_noop_witness :
    updateProductAmount throwingEnv [p5] 5 0 = ⟨[p5], none, [], []⟩ :=
  updateProductAmount_lt_one_noop throwingEnv [p5] 5 0 (by decide)

/-- C10: with the product present and `amount ≥ 1`, a throwing stock lookup
makes `updateProductAmount` raise exactly one notification with the
quantity-change failure message, leaving cart and persisted snapshot
unchanged; the message equals the one the not-found case raises (an empty
cart exhibits that case). -/
theorem updateProductAmount_stock_throw (env : Env) (cart : List Product)
    (productId amount : Int) (p : Product)
    (hfind : cart.find? (fun product => product.id == productId) = some p)
    (hamt : 1 ≤ amount) (hstock : env.stock productId = none) :
    updateProductAmount env cart productId amount =
      ⟨cart, none, [updateErrorMsg], [(productId, amount)]⟩ ∧
    (∀ store, storeAfter store (updateProductAmount env cart productId amount) =
      store) ∧
    (updateProductAmount env cart productId amount).errors =
      (updateProductAmount env ([] : List Product) productId amount).errors := by
  have hlt : ¬ amount < 1 := not_lt.mpr hamt
  refine ⟨?_, ?_, ?_⟩ <;>
    simp [updateProductAmount, hlt, hfind, checkStockAvailability, hstock,
      storeAfter]

/-- C10 witness: throwing environment, product 5 present, amount 3. -/
theorem updateProductAmount_stock_throw_witness :
    updateProductAmount throwingEnv [p5] 5 3 =
      ⟨[p5], none, [updateErrorMsg], [(5, 3)]⟩ ∧
    (∀ store,
      storeAfter store (updateProductAmount throwingEnv [p5] 5 3) = store) ∧
    (updateProductAmount throwingEnv [p5] 5 3).errors =
      (updateProductAmount throwingEnv ([] : List Product) 5 3).errors :=
  updateProductAmount_stock_throw throwingEnv [p5] 5 3 p5 rfl (by decide) rfl

/-- C9 counterexample: a stored value that is present but unreadable (the
parse throws) makes initialization itself fail (`none`) instead of yielding
the empty cart. -/
theorem initCart_unreadable_fails :
    initCart (fun _ => none) (some ("x")) = none ∧
    (none : Option (List Product)) ≠ some [] := by
  exact ⟨rfl, by simp⟩

/-- C9 amended: initialization yields the empty cart when the stored value
is absent or empty (falsy); a nonempty stored value is handed to the parse
and its failure propagates (initialization fails rather than defaulting). -/
theorem initCart_spec (parse : String → Option (List Product)) :
    initCart parse none = some [] ∧
    initCart parse (some ("")) = some [] ∧
    ∀ s, s ≠ "" → initCart parse (some s) = parse s := by
  refine ⟨rfl, rfl, ?_⟩
  intro s hs
  simp [initCart, hs]

/-- C9 witness: a parse succeeding with the empty cart on input x. -/
theorem initCart_spec_witness :
    initCart (fun _ => some []) (some ("x")) = some [] :=
  (initCart_spec (fun _ => some [])).2.2 ("x") (by decide)

/-- C4: when the stock amount returned for `productId` is strictly below the
required quantity (1 when absent, current amount + 1 when present),
`addProduct` leaves the cart unchanged, performs no persistence write, and
raises exactly one error notification. -/
theorem addProduct_insufficient_stock (env : Env) (cart : List Product)
    (productId s : Int) (hstock : env.stock productId = some s) :
    (cart.find? (fun product => product.id == productId) = none → s < 1 →
      addProduct env cart productId =
        ⟨cart, none, [outOfStockMsg], [(productId, 1)]⟩) ∧
    (∀ p, cart.find? (fun product => product.id == productId) = some p →
      s < p.amount + 1 →
      addProduct env cart productId =
        ⟨cart, none, [outOfStockMsg], [(productId, p.amount + 1)]⟩) := by
  constructor
  · intro hfind hs
    have hdec : ¬ (1 ≤ s) := not_le.mpr hs
    simp [addProduct, hfind, checkStockAvailability, hstock, hdec]
  · intro p hfind hs
    have hdec : ¬ (p.amount + 1 ≤ s) := not_le.mpr hs
    simp [addProduct, hfind, checkStockAvailability, hstock, hdec]

/-- C4 witness: product 5 present with amount 2 while the stock answers 2. -/
theorem addProduct_insufficient_stock_witness :
    addProduct lowStockEnv [p5] 5 =
      ⟨[p5], none, [outOfStockMsg], [(5, p5.amount + 1)]⟩ :=
  (addProduct_insufficient_stock lowStockEnv [p5] 5 2 rfl).2 p5 rfl (by decide)

/-- C2: for a `productId` absent from the cart whose stock is at least 1
(and whose metadata resolves), `addProduct` appends exactly one new product
with amount 1 at the end, the saved snapshot is that cart, no error is
raised, and the length grows by exactly 1 with the prior entries in place. -/
theorem addProduct_absent_appends (env : Env) (cart : List Product)
    (productId s : Int) (pd : ProductData)
    (habs : ∀ p ∈ cart, p.id ≠ productId)
    (hstock : env.stock productId = some s) (hs : 1 ≤ s)
    (hcat : env.catalog productId = some pd) :
    addProduct env cart productId =
      ⟨cart ++ [Product.ofData pd 1], some (cart ++ [Product.ofData pd 1]),
        [], [(productId, 1)]⟩ ∧
    (addProduct env cart productId).cart.length = cart.length + 1 := by
  have hfind := find?_id_eq_none habs
  have hdec : decide (s ≥ 1) = true := decide_eq_true hs
  constructor
  · simp [addProduct, hfind, checkStockAvailability, hstock, hdec, hcat]
  · simp [addProduct, hfind, checkStockAvailability, hstock, hdec, hcat]

/-- C2 witness: adding product 7 to the cart holding only product 5. -/
theorem addProduct_absent_appends_witness :
    addProduct sampleEnv [p5] 7 =
      ⟨[p5] ++ [Product.ofData (sampleData 7) 1],
        some ([p5] ++ [Product.ofData (sampleData 7) 1]), [], [(7, 1)]⟩ ∧
    (addProduct sampleEnv [p5] 7).cart.length = ([p5] : List Product).length + 1 :=
  addProduct_absent_appends sampleEnv [p5] 7 10 (sampleData 7) (by decide)
    rfl (by decide) rfl

/-- C3: for a `productId` present in a duplicate-free cart with current
amount `p.amount`, if the stock is at least `p.amount + 1`, `addProduct`
replaces only that product's amount by `p.amount + 1`, keeping its other
fields and every other product structurally unchanged, and saves exactly
the published cart. -/
theorem addProduct_present_increments (env : Env) (l1 l2 : List Product)
    (p : Product) (productId s : Int) (hp : p.id = productId)
    (hnd : ((l1 ++ p :: l2).map Product.id).Nodup)
    (hstock : env.stock productId = some s) (hs : p.amount + 1 ≤ s) :
    addProduct env (l1 ++ p :: l2) productId =
      ⟨l1 ++ { p with amount := p.amount + 1 } :: l2,
        some (l1 ++ { p with amount := p.amount + 1 } :: l2), [],
        [(productId, p.amount + 1)]⟩ := by
  obtain ⟨h1, h2⟩ := nodup_ids_split hp hnd
  have hfind := find?_id_split l2 h1 hp
  have hdec : decide (s ≥ p.amount + 1) = true := decide_eq_true hs
  simp [addProduct, hfind, checkStockAvailability, hstock, hdec]
  rw [map_eq_self_of (fun q hq => if_neg (h1 q hq)),
    map_eq_self_of (fun q hq => if_neg (h2 q hq)), if_pos hp]

/-- C3 witness: incrementing product 5 (amount 2) in the cart of 5 and 7. -/
theorem addProduct_present_increments_witness :
    addProduct sampleEnv ([] ++ p5 :: [p7]) 5 =
      ⟨[] ++ { p5 with amount := p5.amount + 1 } :: [p7],
        some ([] ++ { p5 with amount := p5.amount + 1 } :: [p7]), [],
        [(5, p5.amount + 1)]⟩ :=
  addProduct_present_increments sampleEnv [] [p7] p5 5 10 rfl (by decide)
    rfl (by decide)

/-- C5: on a duplicate-free cart, `removeProduct` of a present id drops
exactly that product (size down by one, all other products unchanged in
place) and saves the result, while an absent id leaves the cart unchanged,
writes nothing and raises exactly one error notification. -/
theorem removeProduct_spec (cart : List Product) (productId : Int)
    (hnd : (cart.map Product.id).Nodup) :
    (∀ l1 p l2, cart = l1 ++ p :: l2 → p.id = productId →
      removeProduct cart productId =
        ⟨l1 ++ l2, some (l1 ++ l2), [], []⟩ ∧
      (removeProduct cart productId).cart.length + 1 = cart.length) ∧
    ((∀ p ∈ cart, p.id ≠ productId) →
      removeProduct cart productId = ⟨cart, none, [removeErrorMsg], []⟩) := by
  constructor
  · rintro l1 p l2 rfl hp
    obtain ⟨h1, h2⟩ := nodup_ids_split hp hnd
    have hfind := find?_id_split l2 h1 hp
    have hfilter : (l1 ++ p :: l2).filter
        (fun product => product.id != productId) = l1 ++ l2 := by
      rw [List.filter_append, filter_eq_self_of h1, List.filter_cons]
      simp [hp, filter_eq_self_of h2]
    constructor
    · simp [removeProduct, hfind, hfilter]
    · simp [removeProduct, hfind, hfilter]
      omega
  · intro habs
    have hfind := find?_id_eq_none habs
    simp [removeProduct, hfind]

/-- C5 witness: removing present id 5 from the cart of 5 and 7. -/
theorem removeProduct_spec_witness :
    (removeProduct ([] ++ p5 :: [p7]) 5 =
      ⟨[] ++ [p7], some ([] ++ [p7]), [], []⟩) ∧
    (removeProduct ([] ++ p5 :: [p7]) 5).cart.length + 1 =
      ([] ++ p5 :: [p7] : List Product).length :=
  (removeProduct_spec ([] ++ p5 :: [p7]) 5 (by decide)).1 [] p5 [p7] rfl rfl

/-- C7: on a duplicate-free cart with `productId` present and `amount ≥ 1`,
if the stock is at least `amount`, `updateProductAmount` replaces only that
product's amount by exactly `amount`, keeps every other product unchanged,
and persists and publishes the same new cart. -/
theorem updateProductAmount_success (env : Env) (l1 l2 : List Product)
    (p : Product) (productId amount s : Int) (hp : p.id = productId)
    (hnd : ((l1 ++ p :: l2).map Product.id).Nodup) (hamt : 1 ≤ amount)
    (hstock : env.stock productId = some s) (hs : amount ≤ s) :
    updateProductAmount env (l1 ++ p :: l2) productId amount =
      ⟨l1 ++ { p with amount := amount } :: l2,
        some (l1 ++ { p with amount := amount } :: l2), [],
        [(productId, amount)]⟩ := by
  obtain ⟨h1, h2⟩ := nodup_ids_split hp hnd
  have hfind := find?_id_split l2 h1 hp
  have hlt : ¬ amount < 1 := not_lt.mpr hamt
  have hdec : decide (s ≥ amount) = true := decide_eq_true hs
  simp [updateProductAmount, hlt, hfind, checkStockAvailability, hstock, hdec]
  rw [map_eq_self_of (fun q hq => if_neg (h1 q hq)),
    map_eq_self_of (fun q hq => if_neg (h2 q hq)), if_pos hp]

lemma addProduct_preserves_inv {env : Env} {cart : List Product} {pid : Int}
    (henv : EnvResolvesIds env) (h : CartInv cart) :
    CartInv (addProduct env cart pid).cart := by
  obtain ⟨hamt, hnd⟩ := h
  cases hfind : cart.find? (fun product => product.id == pid) with
  | none =>
    have habs : ∀ p ∈ cart, p.id ≠ pid := by
      intro p hp
      simpa using List.find?_eq_none.mp hfind p hp
    cases hcs : checkStockAvailability env pid 1 with
    | none =>
      simp only [addProduct, hfind, hcs]
      exact ⟨hamt, hnd⟩
    | some b =>
      cases b with
      | false =>
        simp only [addProduct, hfind, hcs]
        exact ⟨hamt, hnd⟩
      | true =>
        cases hcat : env.catalog pid with
        | none =>
          simp only [addProduct, hfind, hcs, hcat]
          exact ⟨hamt, hnd⟩
        | some pd =>
          have hid : pd.id = pid := henv pid pd hcat
          simp only [addProduct, hfind, hcs, hcat]
          refine ⟨?_, ?_⟩
          · intro q hq
            rcases List.mem_append.mp hq with hq | hq
            · exact hamt q hq
            · rw [List.mem_singleton.mp hq]
              exact le_refl 1
          · rw [List.map_append]
            refine List.Nodup.append hnd (by simp) ?_
            intro a ha hb
            obtain ⟨q, hq, hqa⟩ := List.mem_map.mp ha
            simp [Product.ofData] at hb
            exact habs q hq (hqa.trans (hb.trans hid))
  | some p =>
    cases hcs : checkStockAvailability env pid (p.amount + 1) with
    | none =>
      simp only [addProduct, hfind, hcs]
      exact ⟨hamt, hnd⟩
    | some b =>
      cases b with
      | false =>
        simp only [addProduct, hfind, hcs]
        exact ⟨hamt, hnd⟩
      | true =>
        simp only [addProduct, hfind, hcs]
        refine ⟨?_, ?_⟩
        · intro q hq
          obtain ⟨r, hr, hrq⟩ := List.mem_map.mp hq
          subst hrq
          by_cases hc : r.id = pid
          · have := hamt r hr
            simp only [hc, beq_self_eq_true, if_true]
            omega
          · simp [hc]
            exact hamt r hr
        · rw [map_map_id (fun q => by by_cases hq : q.id = pid <;> simp [hq])]
          exact hnd

lemma removeProduct_preserves_inv {cart : List Product} {pid : Int}
    (h : CartInv cart) : CartInv (removeProduct cart pid).cart := by
  obtain ⟨hamt, hnd⟩ := h
  unfold removeProduct
  split
  · constructor
    · intro q hq
      exact hamt q (List.mem_of_mem_filter hq)
    · exact hnd.sublist ((List.filter_sublist _).map Product.id)
  · exact ⟨hamt, hnd⟩

lemma updateProductAmount_preserves_inv {env : Env} {cart : List Product}
    {pid amount : Int} (h : CartInv cart) :
    CartInv (updateProductAmount env cart pid amount).cart := by
  obtain ⟨hamt, hnd⟩ := h
  by_cases hlt : amount < 1
  · simp only [updateProductAmount, if_pos hlt]
    exact ⟨hamt, hnd⟩
  · have hamt1 : 1 ≤ amount := not_lt.mp hlt
    cases hfind : cart.find? (fun product => product.id == pid) with
    | none =>
      simp only [updateProductAmount, if_neg hlt, hfind]
      exact ⟨hamt, hnd⟩
    | some p =>
      cases hcs : checkStockAvailability env pid amount with
      | none =>
        simp only [updateProductAmount, if_neg hlt, hfind, hcs]
        exact ⟨hamt, hnd⟩
      | some b =>
        cases b with
        | false =>
          simp only [updateProductAmount, if_neg hlt, hfind, hcs]
          exact ⟨hamt, hnd⟩
        | true =>
          simp only [updateProductAmount, if_neg hlt, hfind, hcs]
          refine ⟨?_, ?_⟩
          · intro q hq
            obtain ⟨r, hr, hrq⟩ := List.mem_map.mp hq
            subst hrq
            by_cases hc : r.id = pid
            · simp [hc, hamt1]
            · simp [hc]
              exact hamt r hr
          · rw [map_map_id (fun q => by by_cases hq : q.id = pid <;> simp [hq])]
            exact hnd

/-- Carts reachable from `c0` by any sequence of the three operations, each
run against an environment whose catalog resolves ids. -/
inductive Reachable (c0 : List Product) : List Product → Prop where
  | refl : Reachable c0 c0
  | add (env : Env) (pid : Int) {c : List Product}
      (henv : EnvResolvesIds env) :
      Reachable c0 c → Reachable c0 (addProduct env c pid).cart
  | remove (pid : Int) {c : List Product} :
      Reachable c0 c → Reachable c0 (removeProduct c pid).cart
  | update (env : Env) (pid amount : Int) {c : List Product} :
      Reachable c0 c → Reachable c0 (updateProductAmount env c pid amount).cart

/-- C1: every cart state reachable from a cart satisfying the invariants
still satisfies them — each of the three operations preserves both that
every amount is at least 1 and that the ids are pairwise distinct. -/
theorem reachable_preserves_inv (c0 c : List Product) (h0 : CartInv c0)
    (hr : Reachable c0 c) : CartInv c := by
  induction hr with
  | refl => exact h0
  | add env pid henv hprev ih => exact addProduct_preserves_inv henv ih
  | remove pid hprev ih => exact removeProduct_preserves_inv ih
  | update env pid amount hprev ih => exact updateProductAmount_preserves_inv ih

lemma sampleEnv_resolves : EnvResolvesIds sampleEnv := by
  intro pid pd h
  have h' : some (sampleData pid) = some pd := h
  injection h' with h2
  rw [← h2]
  rfl

/-- C1 witness: the invariants hold after adding product 7 to the empty
cart, a state reachable from the invariant-satisfying empty cart. -/
theorem reachable_preserves_inv_witness :
    CartInv (addProduct sampleEnv [] 7).cart :=
  reachable_preserves_inv [] (addProduct sampleEnv [] 7).cart (by decide)
    (Reachable.add sampleEnv 7 sampleEnv_resolves Reachable.refl)

lemma addProduct_saved_cases (env : Env) (cart : List Product) (pid : Int) :
    (addProduct env cart pid).saved = none ∨
    (addProduct env cart pid).saved = some (addProduct env cart pid).cart := by
  cases hfind : cart.find? (fun product => product.id == pid) with
  | none =>
    cases hcs : checkStockAvailability env pid 1 with
    | none => simp [addProduct, hfind, hcs]
    | some b =>
      cases b with
      | false => simp [addProduct, hfind, hcs]
      | true =>
        cases hcat : env.catalog pid with
        | none => simp [addProduct, hfind, hcs, hcat]
        | some pd => simp [addProduct, hfind, hcs, hcat]
  | some p =>
    cases hcs : checkStockAvailability env pid (p.amount + 1) with
    | none => simp [addProduct, hfind, hcs]
    | some b =>
      cases b with
      | false => simp [addProduct, hfind, hcs]
      | true => simp [addProduct, hfind, hcs]

lemma removeProduct_saved_cases (cart : List Product) (pid : Int) :
    (removeProduct cart pid).saved = none ∨
    (removeProduct cart pid).saved = some (removeProduct cart pid).cart := by
  unfold removeProduct
  split
  · exact Or.inr rfl
  · exact Or.inl rfl

lemma updateProductAmount_saved_cases (env : Env) (cart : List Product)
    (pid amount : Int) :
    (updateProductAmount env cart pid amount).saved = none ∨
    (updateProductAmount env cart pid amount).saved =
      some (updateProductAmount env cart pid amount).cart := by
  by_cases hlt : amount < 1
  · simp [updateProductAmount, hlt]
  · cases hfind : cart.find? (fun product => product.id == pid) with
    | none => simp [updateProductAmount, hlt, hfind]
    | some p =>
      cases hcs : checkStockAvailability env pid amount with
      | none => simp [updateProductAmount, hlt, hfind, hcs]
      | some b =>
        cases b with
        | false => simp [updateProductAmount, hlt, hfind, hcs]
        | true => simp [updateProductAmount, hlt, hfind, hcs]

/-- C8: any snapshot written by one of the three operations is exactly the
published cart, and reading the store back after the operation yields that
same cart. -/
theorem saved_matches_published (env : Env) (cart : List Product)
    (productId amount : Int) (store : Option (List Product)) :
    (∀ c, (addProduct env cart productId).saved = some c →
      c = (addProduct env cart productId).cart ∧
      storeAfter store (addProduct env cart productId) =
        some (addProduct env cart productId).cart) ∧
    (∀ c, (removeProduct cart productId).saved = some c →
      c = (removeProduct cart productId).cart ∧
      storeAfter store (removeProduct cart productId) =
        some (removeProduct cart productId).cart) ∧
    (∀ c, (updateProductAmount env cart productId amount).saved = some c →
      c = (updateProductAmount env cart productId amount).cart ∧
      storeAfter store (updateProductAmount env cart productId amount) =
        some (updateProductAmount env cart productId amount).cart) := by
  refine ⟨?_, ?_, ?_⟩
  · intro c hc
    rcases addProduct_saved_cases env cart productId with h | h
    · rw [h] at hc
      cases hc
    · rw [h] at hc
      obtain rfl := Option.some.inj hc
      exact ⟨rfl, by simp [storeAfter, h]⟩
  · intro c hc
    rcases removeProduct_saved_cases cart productId with h | h
    · rw [h] at hc
      cases hc
    · rw [h] at hc
      obtain rfl := Option.some.inj hc
      exact ⟨rfl, by simp [storeAfter, h]⟩
  · intro c hc
    rcases updateProductAmount_saved_cases env cart productId amount with h | h
    · rw [h] at hc
      cases hc
    · rw [h] at hc
      obtain rfl := Option.some.inj hc
      exact ⟨rfl, by simp [storeAfter, h]⟩

/-- C8 witness: a successful add of product 5 to the empty cart persists
exactly the published cart, and the store reads back as that cart. -/
theorem saved_matches_published_witness :
    [Product.ofData (sampleData 5) 1] = (addProduct sampleEnv [] 5).cart ∧
    storeAfter none (addProduct sampleEnv [] 5) =
      some (addProduct sampleEnv [] 5).cart :=
  (saved_matches_published sampleEnv [] 5 1 none).1
    [Product.ofData (sampleData 5) 1] rfl

/-- C7 witness: setting product 5 to amount 4 in the cart of 5 and 7. -/
theorem updateProductAmount_success_witness :
    updateProductAmount sampleEnv ([] ++ p5 :: [p7]) 5 4 =
      ⟨[] ++ { p5 with amount := 4 } :: [p7],
        some ([] ++ { p5 with amount := 4 } :: [p7]), [], [(5, 4)]⟩ :=
  updateProductAmount_success sampleEnv [] [p7] p5 5 4 10 rfl (by decide)
    (by decide) rfl (by decide)

end CartStore
